import Mathlib

/-!
Shallow embedding of the rpfm PackedFile core: the dual-representation
entry storage (src/rpfm_lib/src/packfile/packedfile.rs) and the
classify/decode/encode dispatcher (src/rpfm_lib/src/packedfile/mod.rs).

Bytes are modelled as `List Nat`; u64/u32 fields as `Nat` with explicit
`% 2 ^ 32` where the source casts. The decrypt and decompress transforms
and the format-specific codecs (DB, Loc, Text, Image modules) are outside
the two source files, so they are abstract parameters here, bundled in
`Ctx`, `Decoders` and `Encoders`; their payload types are opaque tokens.
Rust `Result` is `Except RError`; a method on `&mut self` returns its new
state explicitly, a method on `&self` is a pure function of the state.
-/

namespace Rpfm

/-- Version tag of the containing PackFile, selecting cipher parameters.
The type lives outside the two embedded source files; its constructors are
irrelevant to every claim, only its identity as a tag matters. -/
inductive PFHVersion
  | PFH5
  | PFH4
  | PFH3
  | PFH0
deriving DecidableEq, Repr

/-- Error kinds used by the embedded operations (from the external
rpfm_error crate; only the kinds the two source files can produce, plus
EncodingNotSupported which the spec names for encode). -/
inductive RError
  | DBTableIsNotADBTable
  | IOError
  | DecompressionFailed
  | EncodingNotSupported
  | EmptyInput
  | PackedFileDataIsNotInMemory
  | OtherError
deriving DecidableEq, Repr

/-- The data of a PackedFile, in its current state
(enum PackedFileData in packfile/packedfile.rs). The OnDisk variant's
shared `Arc<Mutex<BufReader<File>>>` handle is modelled by the byte
contents of the underlying file; position is the u64 start offset and
size the u32 byte count. -/
inductive PackedFileData
  | OnMemory (data : List Nat) (is_compressed : Bool) (is_encrypted : Option PFHVersion)
  | OnDisk (file : List Nat) (position : Nat) (size : Nat)
      (is_compressed : Bool) (is_encrypted : Option PFHVersion)
deriving DecidableEq, Repr

/-- A PackedFile in memory (struct PackedFile in packfile/packedfile.rs). -/
structure PackedFile where
  path : List String
  packfile_name : String
  timestamp : Int
  should_be_compressed : Bool
  should_be_encrypted : Option PFHVersion
  data : PackedFileData
deriving DecidableEq, Repr

/-- Abstract transform pipeline: decrypt_packed_file (infallible, from the
external crypto module) and decompress_data (fallible; `none` models the
decompression error on a malformed stream). -/
structure Ctx where
  decrypt : List Nat → List Nat
  decompress : List Nat → Option (List Nat)

/-- Semantics of seek(Start position) followed by read_exact of size bytes
on a buffered file: succeeds with exactly the size bytes at position when
they exist, fails otherwise. -/
def readExact (file : List Nat) (position size : Nat) : Option (List Nat) :=
  if position + size ≤ file.length then some ((file.drop position).take size)
  else none

/-- PackedFile::load_data — loads the data of a PackedFile to memory if it
is not loaded already. Mirrors the source: on the OnDisk variant it seeks
and reads; the assignment to self.data happens only after both succeed,
so on failure the state is returned unchanged. Returns (result, new state). -/
def load_data (pf : PackedFile) : Except RError Unit × PackedFile :=
  match pf.data with
  | .OnDisk file position size ic ie =>
    match readExact file position size with
    | some d => (.ok (), { pf with data := .OnMemory d ic ie })
    | none => (.error .IOError, pf)
  | .OnMemory _ _ _ => (.ok (), pf)

/-- PackedFile::get_data — returns the data of the PackedFile without
loading it to memory: decrypts when the is_encrypted flag is set, then
decompresses when the is_compressed flag is set. Takes &self in the
source, so it is a pure function of the entry. -/
def get_data (c : Ctx) (pf : PackedFile) : Except RError (List Nat) :=
  match pf.data with
  | .OnMemory data ic ie =>
    let d1 := if ie.isSome then c.decrypt data else data
    if ic then
      match c.decompress d1 with
      | some d2 => .ok d2
      | none => .error .DecompressionFailed
    else .ok d1
  | .OnDisk file position size ic ie =>
    match readExact file position size with
    | none => .error .IOError
    | some d =>
      let d1 := if ie.isSome then c.decrypt d else d
      if ic then
        match c.decompress d1 with
        | some d2 => .ok d2
        | none => .error .DecompressionFailed
      else .ok d1

/-- PackedFile::get_data_and_keep_it — returns the data, loading and
caching the plaintext. In the OnMemory branch the source mutates the
buffer in place (decrypt, then decompress via the question-mark operator,
then clears both flags), so a decompression failure leaves the buffer
decrypted with flags untouched; in the OnDisk branch the state is only
replaced after full success. Returns (result, new state). -/
def get_data_and_keep_it (c : Ctx) (pf : PackedFile) :
    Except RError (List Nat) × PackedFile :=
  match pf.data with
  | .OnMemory data ic ie =>
    let d1 := if ie.isSome then c.decrypt data else data
    if ic then
      match c.decompress d1 with
      | some d2 => (.ok d2, { pf with data := .OnMemory d2 false none })
      | none => (.error .DecompressionFailed, { pf with data := .OnMemory d1 ic ie })
    else (.ok d1, { pf with data := .OnMemory d1 false none })
  | .OnDisk file position size ic ie =>
    match readExact file position size with
    | none => (.error .IOError, pf)
    | some d =>
      let d1 := if ie.isSome then c.decrypt d else d
      if ic then
        match c.decompress d1 with
        | some d2 => (.ok d2, { pf with data := .OnMemory d2 false none })
        | none => (.error .DecompressionFailed, pf)
      else (.ok d1, { pf with data := .OnMemory d1 false none })

/-- PackedFile::get_size — data.len() as u32 for the in-memory variant
(the cast is the reduction modulo 2 ^ 32), the stored u32 size field for
the on-disk variant. -/
def get_size (pf : PackedFile) : Nat :=
  match pf.data with
  | .OnMemory data _ _ => data.length % 2 ^ 32
  | .OnDisk _ _ size _ _ => size

/-- PackedFile::get_compression_state. -/
def get_compression_state (pf : PackedFile) : Bool :=
  match pf.data with
  | .OnMemory _ state _ => state
  | .OnDisk _ _ _ state _ => state

/-- The PartialEq implementation for PackedFileData: two OnMemory values
compare field-wise; any comparison involving an OnDisk value is false. -/
def pfdBeq : PackedFileData → PackedFileData → Bool
  | .OnMemory d ic ie, .OnMemory d2 ic2 ie2 =>
    d == d2 && ic == ic2 && ie == ie2
  | _, _ => false

/-- Payload of a decoded DB table (external table module; opaque token). -/
structure DB where
  val : Nat
deriving DecidableEq, Repr

/-- Payload of a decoded image (external image module; opaque token). -/
structure Image where
  val : Nat
deriving DecidableEq, Repr

/-- Payload of a decoded Loc table (external table module; opaque token). -/
structure Loc where
  val : Nat
deriving DecidableEq, Repr

/-- Payload of a decoded text file (external text module; opaque token). -/
structure Text where
  val : Nat
deriving DecidableEq, Repr

/-- Schema metadata for table decoding (external schema module; opaque
token). -/
structure Schema where
  val : Nat
deriving DecidableEq, Repr

/-- A decoded PackedFile (enum DecodedPackedFile in packedfile/mod.rs). -/
inductive DecodedPackedFile
  | Anim
  | AnimFragment
  | AnimPack
  | AnimTable
  | CEO
  | DB (payload : Rpfm.DB)
  | Image (payload : Rpfm.Image)
  | Loc (payload : Rpfm.Loc)
  | MatchedCombat
  | RigidModel
  | StarPos
  | Text (payload : Rpfm.Text)
  | Unknown
deriving DecidableEq, Repr

/-- The different types of PackedFile (enum PackedFileType in
packedfile/mod.rs). -/
inductive PackedFileType
  | Anim
  | AnimFragment
  | AnimPack
  | AnimTable
  | CEO
  | DB
  | Image
  | Loc
  | MatchedCombat
  | RigidModel
  | StarPos
  | Text
  | Unknown
deriving DecidableEq, Repr

/-- Semantics of Rust str::ends_with — whether the second string is a
suffix of the first, as a test on the character sequences. -/
def rust_ends_with (s pat : String) : Bool :=
  pat.data.isSuffixOf s.data

/-- PackedFileType::get_packed_file_type — the type of the PackedFile at
the provided path, translated clause by clause from the source: the last
path segment is taken first (no segment means Unknown), then in order the
db-folder check on segment 0, the .loc check, the .rigid_model_v2 check,
the chain of plain-text extensions, the chain of image extensions, and
finally Unknown. -/
def get_packed_file_type (path : List String) : PackedFileType :=
  match path.getLast? with
  | some packedfile_name =>
    if path.headI = "db" then .DB
    else if rust_ends_with packedfile_name ".loc" then .Loc
    else if rust_ends_with packedfile_name ".rigid_model_v2" then .RigidModel
    else if rust_ends_with packedfile_name ".lua" ||
            rust_ends_with packedfile_name ".xml" ||
            rust_ends_with packedfile_name ".xml.shader" ||
            rust_ends_with packedfile_name ".xml.material" ||
            rust_ends_with packedfile_name ".variantmeshdefinition" ||
            rust_ends_with packedfile_name ".environment" ||
            rust_ends_with packedfile_name ".lighting" ||
            rust_ends_with packedfile_name ".wsmodel" ||
            rust_ends_with packedfile_name ".csv" ||
            rust_ends_with packedfile_name ".tsv" ||
            rust_ends_with packedfile_name ".inl" ||
            rust_ends_with packedfile_name ".battle_speech_camera" ||
            rust_ends_with packedfile_name ".bob" ||
            rust_ends_with packedfile_name ".cindyscene" ||
            rust_ends_with packedfile_name ".cindyscenemanager" ||
            rust_ends_with packedfile_name ".txt" then .Text
    else if rust_ends_with packedfile_name ".jpg" ||
            rust_ends_with packedfile_name ".jpeg" ||
            rust_ends_with packedfile_name ".tga" ||
            rust_ends_with packedfile_name ".dds" ||
            rust_ends_with packedfile_name ".png" then .Image
    else .Unknown
  | none => .Unknown

/-- Abstract format-specific decoders: DB::read, Image::read, Loc::read
and Text::read live in external modules and are opaque to the two
embedded source files; only which one is invoked matters. -/
structure Decoders where
  DB_read : List Nat → String → Schema → Except RError DB
  Image_read : List Nat → Except RError Image
  Loc_read : List Nat → Schema → Except RError Loc
  Text_read : List Nat → Except RError Text

/-- DecodedPackedFile::decode — decodes a RawPackedFile. The process-wide
SCHEMA mutex contents are passed as the `schema : Option Schema`
argument; the abstract decoders and transforms as `dec` and `c`. In the
DB arm the source resolves the table-name segment (path index 1) before
reading the data, exactly as the question-mark operators order it. -/
def decode (schema : Option Schema) (c : Ctx) (dec : Decoders)
    (pf : PackedFile) : Except RError DecodedPackedFile :=
  match get_packed_file_type pf.path with
  | .DB =>
    match schema with
    | some s =>
      match pf.path[1]? with
      | none => .error .DBTableIsNotADBTable
      | some name => do
        let data ← get_data c pf
        let packed_file ← dec.DB_read data name s
        pure (.DB packed_file)
    | none => .ok .Unknown
  | .Image => do
    let data ← get_data c pf
    let packed_file ← dec.Image_read data
    pure (.Image packed_file)
  | .Loc =>
    match schema with
    | some s => do
      let data ← get_data c pf
      let packed_file ← dec.Loc_read data s
      pure (.Loc packed_file)
    | none => .ok .Unknown
  | .Text => do
    let data ← get_data c pf
    let packed_file ← dec.Text_read data
    pure (.Text packed_file)
  | _ => .ok .Unknown

/-- DecodedPackedFile::decode_no_locks — decodes a RawPackedFile with the
schema passed directly. Translated arm by arm from the source; note the
Image arm of the source invokes Text::read and wraps the result in the
Text variant. -/
def decode_no_locks (schema : Schema) (c : Ctx) (dec : Decoders)
    (pf : PackedFile) : Except RError DecodedPackedFile :=
  match get_packed_file_type pf.path with
  | .DB =>
    match pf.path[1]? with
    | none => .error .DBTableIsNotADBTable
    | some name => do
      let data ← get_data c pf
      let packed_file ← dec.DB_read data name schema
      pure (.DB packed_file)
  | .Image => do
    let data ← get_data c pf
    let packed_file ← dec.Text_read data
    pure (.Text packed_file)
  | .Loc => do
    let data ← get_data c pf
    let packed_file ← dec.Loc_read data schema
    pure (.Loc packed_file)
  | .Text => do
    let data ← get_data c pf
    let packed_file ← dec.Text_read data
    pure (.Text packed_file)
  | _ => .ok .Unknown

/-- Abstract format-specific encoders: DB::save, Loc::save and Text::save
from the external modules. -/
structure Encoders where
  DB_save : DB → Except RError (List Nat)
  Loc_save : Loc → Except RError (List Nat)
  Text_save : Text → Except RError (List Nat)

/-- Outcome of DecodedPackedFile::encode: a returned Ok value, a returned
Err value, or a panic — the source uses the unimplemented macro, which
aborts the thread rather than returning, so a panic outcome is distinct
from every returned result. -/
inductive EncodeOutcome
  | ok (bytes : List Nat)
  | err (e : RError)
  | panic
deriving DecidableEq, Repr

/-- Coercion of an encoder result into an encode outcome. -/
def outcomeOfResult : Except RError (List Nat) → EncodeOutcome
  | .ok b => .ok b
  | .error e => .err e

/-- DecodedPackedFile::encode — DB, Loc and Text invoke the value's own
save; every other variant (Image included) hits the unimplemented macro
and panics. -/
def encode (e : Encoders) : DecodedPackedFile → EncodeOutcome
  | .DB data => outcomeOfResult (e.DB_save data)
  | .Image _ => .panic
  | .Loc data => outcomeOfResult (e.Loc_save data)
  | .Text data => outcomeOfResult (e.Text_save data)
  | _ => .panic

/-- Raw stored bytes of the entry prior to any transform: the held buffer
for an in-memory entry, the seek-and-read-exact result for an on-disk
entry. -/
def raw_bytes (pf : PackedFile) : Option (List Nat) :=
  match pf.data with
  | .OnMemory d _ _ => some d
  | .OnDisk file position size _ _ => readExact file position size

/-- The actual-encryption flag of the current representation. -/
def get_encryption_state (pf : PackedFile) : Option PFHVersion :=
  match pf.data with
  | .OnMemory _ _ state => state
  | .OnDisk _ _ _ _ state => state

/-- One operation issued against the shared buffered file handle. In the
source, each such operation runs under its own acquisition of the handle
mutex: the statement `file.lock().unwrap().seek(..)` drops the guard at
the end of the statement, before `file.lock().unwrap().read_exact(..)`
re-acquires it. -/
inductive FOp
  | seek (pos : Nat)
  | read (len : Nat)
deriving DecidableEq, Repr

/-- Effect of one locked operation on the handle: the cursor moves, a read
also yields the bytes under the cursor (BufReader semantics: read returns
the len bytes starting at the cursor and advances it). -/
def execOp (contents : List Nat) (cur : Nat) : FOp → Nat × List Nat
  | .seek p => (p, [])
  | .read n => (cur + n, (contents.drop cur).take n)

/-- Run a schedule of operations, tagged by which of two entries issued
each one, against a handle with the given contents and initial cursor;
returns the bytes obtained by the true-tagged and false-tagged entry. -/
def execSched (contents : List Nat) : Nat → List (Bool × FOp) → List Nat × List Nat
  | _, [] => ([], [])
  | cur, (tag, op) :: rest =>
    let r := execOp contents cur op
    let rs := execSched contents r.1 rest
    if tag then (r.2 ++ rs.1, rs.2) else (rs.1, r.2 ++ rs.2)

/-- The subsequence of a schedule issued by one entry. -/
def opsOf (tag : Bool) (sched : List (Bool × FOp)) : List FOp :=
  (sched.filter (fun x => x.1 == tag)).map (fun x => x.2)

/-- A schedule is an interleaving of two operation sequences when each
entry's operations appear in it, in their program order. -/
def isInterleaving (sched : List (Bool × FOp)) (a b : List FOp) : Prop :=
  opsOf true sched = a ∧ opsOf false sched = b

/-- The operation sequence the OnDisk read path of load_data, get_data and
get_data_and_keep_it issues against the shared handle: a seek to the
stored position, then a read of the stored size. Each element is its own
critical section (see FOp). -/
def entryOps (position size : Nat) : List FOp := [.seek position, .read size]

/-- Modelled from the spec (section 4.1): the classification resolution
order as the spec words it — empty path, db first segment, .loc suffix,
.rigid_model_v2 suffix, the fixed text-extension set, the image-extension
set, otherwise Unknown. Stated to be compared with the source translation
get_packed_file_type. -/
def classifySpec (path : List String) : PackedFileType :=
  match path.getLast? with
  | none => .Unknown
  | some name =>
    if path.headI = "db" then .DB
    else if rust_ends_with name ".loc" then .Loc
    else if rust_ends_with name ".rigid_model_v2" then .RigidModel
    else if [".lua", ".xml", ".xml.shader", ".xml.material",
             ".variantmeshdefinition", ".environment", ".lighting",
             ".wsmodel", ".csv", ".tsv", ".inl", ".battle_speech_camera",
             ".bob", ".cindyscene", ".cindyscenemanager",
             ".txt"].any (fun e => rust_ends_with name e) then .Text
    else if [".jpg", ".jpeg", ".tga", ".dds",
             ".png"].any (fun e => rust_ends_with name e) then .Image
    else .Unknown

/-- Identity transforms: no encryption layer, decompression that accepts
any stream unchanged. -/
def ctx0 : Ctx where
  decrypt := fun l => l
  decompress := fun l => some l

/-- Nontrivial transforms for exercising the pipeline: decryption shifts
every byte, decompression doubles the stream. -/
def ctxShift : Ctx where
  decrypt := fun l => l.map (fun b => b + 1)
  decompress := fun l => some (l ++ l)

/-- Decoders that tag their result, so the invoked decoder is visible in
the output. -/
def dec0 : Decoders where
  DB_read := fun _ _ _ => .ok ⟨10⟩
  Image_read := fun _ => .ok ⟨11⟩
  Loc_read := fun _ _ => .ok ⟨12⟩
  Text_read := fun _ => .ok ⟨13⟩

/-- Encoders that encode a payload to its token. -/
def enc0 : Encoders where
  DB_save := fun d => .ok [d.val]
  Loc_save := fun d => .ok [d.val]
  Text_save := fun d => .ok [d.val]

/-- A resident entry whose path classifies as Image. -/
def pfPng : PackedFile where
  path := ["x", "file.png"]
  packfile_name := ""
  timestamp := 0
  should_be_compressed := false
  should_be_encrypted := none
  data := .OnMemory [1, 2, 3] false none

/-- A resident entry with path ["db"]: DB classification, no table-name
segment. -/
def pfDbNoName : PackedFile where
  path := ["db"]
  packfile_name := ""
  timestamp := 0
  should_be_compressed := false
  should_be_encrypted := none
  data := .OnMemory [5] false none

/-- A resident entry in the db folder with a table-name segment. -/
def pfDbNamed : PackedFile where
  path := ["db", "land_units_tables", "data__"]
  packfile_name := ""
  timestamp := 0
  should_be_compressed := false
  should_be_encrypted := none
  data := .OnMemory [5, 6] false none

/-- A resident entry holding an encrypted, compressed buffer. -/
def pfTrans : PackedFile where
  path := ["x", "file.bin"]
  packfile_name := "pack"
  timestamp := 3
  should_be_compressed := true
  should_be_encrypted := none
  data := .OnMemory [1, 2] true (some .PFH5)

/-- A backed entry over an 8-byte file, offset 4, length 4. -/
def pfDisk : PackedFile where
  path := ["y", "file.bin"]
  packfile_name := "pack"
  timestamp := 0
  should_be_compressed := false
  should_be_encrypted := none
  data := .OnDisk [10, 11, 12, 13, 14, 15, 16, 17] 4 4 false none

/-- A resident entry holding a buffer longer than 2 ^ 32 bytes. -/
def pfBig : PackedFile where
  path := ["big.bin"]
  packfile_name := ""
  timestamp := 0
  should_be_compressed := false
  should_be_encrypted := none
  data := .OnMemory (List.replicate (2 ^ 32 + 5) 0) false none

/-- A backed entry whose stored offset and length overrun the file. -/
def pfDiskBad : PackedFile where
  path := ["y", "file.bin"]
  packfile_name := "pack"
  timestamp := 0
  should_be_compressed := false
  should_be_encrypted := none
  data := .OnDisk [10, 11, 12] 2 9 true (some .PFH4)

/-- C4: get_packed_file_type is a pure, total function of the path (it is
a Lean function, so purity and determinism are by construction), evaluates
its checks in exactly the order the spec gives — shown by equality with
classifySpec, the clause-for-clause rendering of the spec wording — and
returns the four concrete results the spec lists. -/
theorem classify_matches_spec_and_examples :
    (∀ path, get_packed_file_type path = classifySpec path)
    ∧ get_packed_file_type ["db", "land_units_tables", "data__"] = .DB
    ∧ get_packed_file_type ["x", "file.loc"] = .Loc
    ∧ get_packed_file_type ["x", "file.unknownext"] = .Unknown
    ∧ get_packed_file_type [] = .Unknown := by
  refine ⟨?_, by decide, by decide, by decide, by decide⟩
  intro path
  unfold get_packed_file_type classifySpec
  cases path.getLast? with
  | none => rfl
  | some name =>
    simp only [List.any_cons, List.any_nil, Bool.or_false, Bool.or_assoc]

/-- C1 (code-bug demonstration): on an entry whose path classifies as
Image, the locked path decode invokes the Image decoder and returns an
Image-kind value, while decode_no_locks invokes the Text decoder and
returns a Text-kind value — the two dispatch paths diverge. -/
theorem decode_dispatch_diverges_on_image :
    decode (some ⟨0⟩) ctx0 dec0 pfPng = .ok (.Image ⟨11⟩)
    ∧ decode_no_locks ⟨0⟩ ctx0 dec0 pfPng = .ok (.Text ⟨13⟩)
    ∧ DecodedPackedFile.Image ⟨11⟩ ≠ DecodedPackedFile.Text ⟨13⟩ := by
  refine ⟨rfl, rfl, by decide⟩

/-- C2 counterexample: encode on an Image-kind value panics via the
unimplemented macro; a panic is not the returned error
EncodingNotSupported the claim requires. -/
theorem encode_image_panics :
    encode enc0 (.Image ⟨0⟩) = .panic
    ∧ EncodeOutcome.panic ≠ .err .EncodingNotSupported := by
  exact ⟨rfl, by decide⟩

/-- C2 amended: for every variant other than DB, Loc and Text (Image and
every placeholder kind included), encode panics via the unimplemented
macro instead of returning a result; for DB, Loc and Text it invokes that
value's own encoder and returns its result. -/
theorem encode_dispatch_spec (e : Encoders) (v : DecodedPackedFile) :
    ((∀ d, v ≠ .DB d) → (∀ d, v ≠ .Loc d) → (∀ d, v ≠ .Text d) →
      encode e v = .panic)
    ∧ (∀ d, encode e (.DB d) = outcomeOfResult (e.DB_save d))
    ∧ (∀ d, encode e (.Loc d) = outcomeOfResult (e.Loc_save d))
    ∧ (∀ d, encode e (.Text d) = outcomeOfResult (e.Text_save d)) := by
  refine ⟨?_, fun d => rfl, fun d => rfl, fun d => rfl⟩
  intro h1 h2 h3
  cases v <;>
    first
      | rfl
      | exact absurd rfl (h1 _)
      | exact absurd rfl (h2 _)
      | exact absurd rfl (h3 _)

/-- C2 amended, witness: the Anim placeholder panics and a DB value is
routed to its own encoder. -/
theorem encode_dispatch_spec_witness :
    encode enc0 .Anim = .panic
    ∧ encode enc0 (.DB ⟨10⟩) = outcomeOfResult (enc0.DB_save ⟨10⟩) := by
  exact ⟨(encode_dispatch_spec enc0 .Anim).1
      (fun d h => DecodedPackedFile.noConfusion h)
      (fun d h => DecodedPackedFile.noConfusion h)
      (fun d h => DecodedPackedFile.noConfusion h),
    (encode_dispatch_spec enc0 (.DB ⟨10⟩)).2.1 ⟨10⟩⟩

/-- C3 (code-bug demonstration): the seek and the read of the OnDisk path
are separate critical sections, so the per-operation steps of two entries
sharing one handle may interleave. In the schedule where entry A (offset
0, length 4) seeks, then entry B (offset 4, length 4) seeks, then both
read, A obtains the bytes at offset 4 instead of the bytes at its own
offset 0 — under the claimed atomic seek-plus-read section (the
uninterleaved schedule, last conjunct) A obtains exactly its own bytes. -/
theorem shared_handle_seek_read_interleaving :
    isInterleaving [(true, .seek 0), (false, .seek 4), (true, .read 4), (false, .read 4)]
      (entryOps 0 4) (entryOps 4 4)
    ∧ (execSched [10, 11, 12, 13, 14, 15, 16, 17] 0
        [(true, .seek 0), (false, .seek 4), (true, .read 4), (false, .read 4)]).1
      = [14, 15, 16, 17]
    ∧ [14, 15, 16, 17] ≠ ([10, 11, 12, 13, 14, 15, 16, 17].drop 0).take 4
    ∧ (execSched [10, 11, 12, 13, 14, 15, 16, 17] 0
        [(true, .seek 0), (true, .read 4), (false, .seek 4), (false, .read 4)]).1
      = ([10, 11, 12, 13, 14, 15, 16, 17].drop 0).take 4 := by
  refine ⟨⟨rfl, rfl⟩, by decide, by decide, by decide⟩

/-- C8: for an entry classified DB, decode returns Unknown as a
successful result when the shared schema is absent, whatever the path;
with a schema present it fails with the not-a-database-table error when
the path has no second segment, and otherwise hands the second segment to
the DB decoder as the table name. -/
theorem decode_db_schema_handling (c : Ctx) (dec : Decoders) (pf : PackedFile)
    (hty : get_packed_file_type pf.path = .DB) :
    decode none c dec pf = .ok .Unknown
    ∧ (∀ s, pf.path[1]? = none →
        decode (some s) c dec pf = .error .DBTableIsNotADBTable)
    ∧ (∀ s name, pf.path[1]? = some name →
        decode (some s) c dec pf =
          (do
            let data ← get_data c pf
            let packed_file ← dec.DB_read data name s
            pure (.DB packed_file))) := by
  refine ⟨?_, ?_, ?_⟩
  · unfold decode; rw [hty]
  · intro s h; unfold decode; rw [hty, h]
  · intro s name h; unfold decode; rw [hty, h]

/-- C8 witness: with path ["db"], decode succeeds with Unknown when no
schema is set and fails with the not-a-database-table error when one is;
with path ["db", "land_units_tables", "data__"] the table segment is
handed to the DB decoder. -/
theorem decode_db_schema_handling_witness :
    decode none ctx0 dec0 pfDbNoName = .ok .Unknown
    ∧ decode (some ⟨0⟩) ctx0 dec0 pfDbNoName = .error .DBTableIsNotADBTable
    ∧ decode (some ⟨0⟩) ctx0 dec0 pfDbNamed =
        (do
          let data ← get_data ctx0 pfDbNamed
          let packed_file ← dec0.DB_read data "land_units_tables" ⟨0⟩
          pure (.DB packed_file)) := by
  exact ⟨(decode_db_schema_handling ctx0 dec0 pfDbNoName (by decide)).1,
    (decode_db_schema_handling ctx0 dec0 pfDbNoName (by decide)).2.1 ⟨0⟩ rfl,
    (decode_db_schema_handling ctx0 dec0 pfDbNamed (by decide)).2.2 ⟨0⟩
      "land_units_tables" rfl⟩

/-- C9: the PartialEq on the data representation is false whenever either
side is OnDisk — in particular an OnDisk value is not equal to itself —
and on two OnMemory values it holds exactly when the bytes and both
actual-transform flags agree. -/
theorem pfdBeq_spec :
    (∀ x file p s ic ie,
      pfdBeq x (.OnDisk file p s ic ie) = false
      ∧ pfdBeq (.OnDisk file p s ic ie) x = false)
    ∧ (∀ d ic ie d2 ic2 ie2,
        pfdBeq (.OnMemory d ic ie) (.OnMemory d2 ic2 ie2) = true
          ↔ d = d2 ∧ ic = ic2 ∧ ie = ie2) := by
  constructor
  · intro x file p s ic ie
    exact ⟨by cases x <;> rfl, by cases x <;> rfl⟩
  · intro d ic ie d2 ic2 ie2
    simp [pfdBeq, and_assoc]

/-- C9 witness: a concrete OnDisk value fails to equal itself, and a
concrete OnMemory value equals itself with field agreement. -/
theorem pfdBeq_spec_witness :
    pfdBeq (.OnDisk [9] 0 1 false none) (.OnDisk [9] 0 1 false none) = false
    ∧ (pfdBeq (.OnMemory [1] true none) (.OnMemory [1] true none) = true
        ↔ ([1] : List Nat) = [1] ∧ true = true
          ∧ (none : Option PFHVersion) = none) := by
  exact ⟨(pfdBeq_spec.1 (.OnDisk [9] 0 1 false none) [9] 0 1 false none).2,
    pfdBeq_spec.2 [1] true none [1] true none⟩

/-- C10: for an in-memory entry, get_size is the buffer length reduced
modulo 2 ^ 32 — so a buffer of 2 ^ 32 bytes or more reports a size
strictly smaller than its byte count — and for an on-disk entry it is the
stored u32 size field exactly. -/
theorem get_size_spec (pf : PackedFile) :
    (∀ d ic ie, pf.data = .OnMemory d ic ie →
      get_size pf = d.length % 2 ^ 32
      ∧ (2 ^ 32 ≤ d.length → get_size pf < d.length))
    ∧ (∀ file p s ic ie, pf.data = .OnDisk file p s ic ie → get_size pf = s) := by
  constructor
  · intro d ic ie h
    have hg : get_size pf = d.length % 2 ^ 32 := by unfold get_size; rw [h]
    refine ⟨hg, fun hle => ?_⟩
    calc get_size pf = d.length % 2 ^ 32 := hg
      _ < 2 ^ 32 := Nat.mod_lt _ (by norm_num)
      _ ≤ d.length := hle
  · intro file p s ic ie h
    unfold get_size; rw [h]

/-- C10 witness: an in-memory buffer of 2 ^ 32 + 5 bytes reports a size
smaller than its length, and the backed fixture reports its stored size
field 4. -/
theorem get_size_spec_witness :
    get_size pfBig < (List.replicate (2 ^ 32 + 5) 0).length
    ∧ get_size pfDisk = 4 := by
  constructor
  · exact ((get_size_spec pfBig).1 (List.replicate (2 ^ 32 + 5) 0) false none
      rfl).2 (by rw [List.length_replicate]; exact Nat.le_add_right _ _)
  · exact (get_size_spec pfDisk).2 [10, 11, 12, 13, 14, 15, 16, 17] 4 4
      false none rfl

/-- C6: load_data on an in-memory entry is a successful no-op; on a
backed entry whose stored range fits the file it reads exactly the size
bytes at the stored position and becomes in-memory with both actual
flags carried over unchanged; and when the range overruns the file it
fails with IOError leaving the whole entry unchanged, still backed with
the same handle contents, offset, length and flags. -/
theorem load_data_spec (pf : PackedFile) :
    (∀ d ic ie, pf.data = .OnMemory d ic ie → load_data pf = (.ok (), pf))
    ∧ (∀ file p s ic ie, pf.data = .OnDisk file p s ic ie →
        p + s ≤ file.length →
        load_data pf =
          (.ok (), { pf with data := .OnMemory ((file.drop p).take s) ic ie }))
    ∧ (∀ file p s ic ie, pf.data = .OnDisk file p s ic ie →
        file.length < p + s →
        load_data pf = (.error .IOError, pf)) := by
  refine ⟨?_, ?_, ?_⟩
  · intro d ic ie h; unfold load_data; rw [h]
  · intro file p s ic ie h hle
    simp [load_data, h, readExact, hle]
  · intro file p s ic ie h hlt
    have hn : ¬(p + s ≤ file.length) := by omega
    simp [load_data, h, readExact, hn]

/-- C6 witness: load_data is the identity on a resident fixture, carries
the flags over on the in-range backed fixture, and fails with IOError on
the out-of-range backed fixture, leaving it unchanged. -/
theorem load_data_spec_witness :
    load_data pfTrans = (.ok (), pfTrans)
    ∧ load_data pfDisk =
        (.ok (), { pfDisk with
          data := .OnMemory (([10, 11, 12, 13, 14, 15, 16, 17].drop 4).take 4)
            false none })
    ∧ load_data pfDiskBad = (.error .IOError, pfDiskBad) := by
  exact ⟨(load_data_spec pfTrans).1 [1, 2] true (some .PFH5) rfl,
    (load_data_spec pfDisk).2.1 [10, 11, 12, 13, 14, 15, 16, 17] 4 4
      false none rfl (by norm_num),
    (load_data_spec pfDiskBad).2.2 [10, 11, 12] 2 9 true (some .PFH4)
      rfl (by norm_num)⟩

/-- Helper: get_data_and_keep_it succeeds with bytes bs and final state
pf2 exactly when get_data yields bs and pf2 is the entry caching bs as
untransformed plaintext. -/
theorem gdki_ok_iff (c : Ctx) (pf pf2 : PackedFile) (bs : List Nat) :
    get_data_and_keep_it c pf = (.ok bs, pf2) ↔
      get_data c pf = .ok bs
      ∧ pf2 = { pf with data := .OnMemory bs false none } := by
  obtain ⟨p1, p2, p3, p4, p5, d⟩ := pf
  cases d with
  | OnMemory data ic ie =>
    cases ic with
    | false =>
      simp [get_data_and_keep_it, get_data]
      intro h
      subst h
      exact eq_comm
    | true =>
      cases hc : c.decompress (if ie.isSome then c.decrypt data else data) with
      | none => simp [get_data_and_keep_it, get_data, hc]
      | some d2 =>
        simp [get_data_and_keep_it, get_data, hc]
        intro h
        subst h
        exact eq_comm
  | OnDisk file pos size ic ie =>
    cases hre : readExact file pos size with
    | none => simp [get_data_and_keep_it, get_data, hre]
    | some dd =>
      cases ic with
      | false =>
        simp [get_data_and_keep_it, get_data, hre]
        intro h
        subst h
        exact eq_comm
      | true =>
        cases hc : c.decompress (if ie.isSome then c.decrypt dd else dd) with
        | none => simp [get_data_and_keep_it, get_data, hre, hc]
        | some d2 =>
          simp [get_data_and_keep_it, get_data, hre, hc]
          intro h
          subst h
          exact eq_comm

/-- C5: when get_data_and_keep_it succeeds it leaves the entry in-memory
with the returned bytes and both actual-transform flags cleared; the
bytes are exactly what the decrypt-then-decompress read path get_data
yields (each transform applied at most once); and any further
get_data_and_keep_it or get_data on the resulting entry returns the same
bytes and same state for every transform pipeline whatsoever — so
neither decrypt nor decompress is invoked again. -/
theorem take_and_cache_spec (c : Ctx) (pf pf2 : PackedFile) (bs : List Nat)
    (h : get_data_and_keep_it c pf = (.ok bs, pf2)) :
    pf2 = { pf with data := .OnMemory bs false none }
    ∧ get_data c pf = .ok bs
    ∧ ∀ c2, get_data_and_keep_it c2 pf2 = (.ok bs, pf2)
        ∧ get_data c2 pf2 = .ok bs := by
  obtain ⟨h1, h2⟩ := (gdki_ok_iff c pf pf2 bs).1 h
  refine ⟨h2, h1, fun c2 => ?_⟩
  have hget : get_data c2 pf2 = .ok bs := by
    rw [h2]; simp [get_data]
  have hfix : pf2 = { pf2 with data := .OnMemory bs false none } := by
    rw [h2]
  exact ⟨(gdki_ok_iff c2 pf2 pf2 bs).2 ⟨hget, hfix⟩, hget⟩

/-- C5 witness: on a resident encrypted-and-compressed fixture the first
call decrypts then decompresses and caches the plaintext; the second
call, here run under the unrelated identity pipeline, returns the same
bytes and the same state. -/
theorem take_and_cache_spec_witness :
    get_data ctxShift pfTrans = .ok [2, 3, 2, 3]
    ∧ get_data_and_keep_it ctx0
        { pfTrans with data := .OnMemory [2, 3, 2, 3] false none }
      = (.ok [2, 3, 2, 3], { pfTrans with data := .OnMemory [2, 3, 2, 3] false none })
    ∧ get_data ctx0 { pfTrans with data := .OnMemory [2, 3, 2, 3] false none }
      = .ok [2, 3, 2, 3] := by
  have h := take_and_cache_spec ctxShift pfTrans
    { pfTrans with data := .OnMemory [2, 3, 2, 3] false none } [2, 3, 2, 3] rfl
  exact ⟨h.2.1, (h.2.2 ctx0).1, (h.2.2 ctx0).2⟩

/-- C7: get_data — a method on &self, hence embedded as a pure function
of the entry, mutating no part of it — applies decrypt first (when the
actual-encryption flag is set) and then decompress (when the
actual-compression flag is set), never in any other order; and it fails
with DecompressionFailed exactly when the raw bytes were obtained, the
entry is flagged compressed and decompress rejects the (possibly
decrypted) stream as malformed. -/
theorem get_data_decrypt_then_decompress (c : Ctx) (pf : PackedFile) :
    (∀ base, raw_bytes pf = some base →
      get_data c pf =
        (let d1 := if (get_encryption_state pf).isSome then c.decrypt base else base
         if get_compression_state pf then
           match c.decompress d1 with
           | some d2 => .ok d2
           | none => .error .DecompressionFailed
         else .ok d1))
    ∧ (raw_bytes pf = none → get_data c pf = .error .IOError)
    ∧ (get_data c pf = .error .DecompressionFailed ↔
        ∃ base, raw_bytes pf = some base ∧ get_compression_state pf = true
          ∧ c.decompress
              (if (get_encryption_state pf).isSome then c.decrypt base else base)
            = none) := by
  obtain ⟨p1, p2, p3, p4, p5, d⟩ := pf
  cases d with
  | OnMemory data ic ie =>
    refine ⟨?_, ?_, ?_⟩
    · intro base hb
      simp only [raw_bytes, Option.some.injEq] at hb
      subst hb
      simp [get_data, get_encryption_state, get_compression_state]
    · intro hb
      simp [raw_bytes] at hb
    · cases ic with
      | false => simp [get_data, get_compression_state, raw_bytes]
      | true =>
        cases hc : c.decompress (if ie.isSome then c.decrypt data else data) with
        | none =>
          simp [get_data, get_compression_state, get_encryption_state, raw_bytes, hc]
        | some d2 =>
          simp [get_data, get_compression_state, get_encryption_state, raw_bytes, hc]
  | OnDisk file pos size ic ie =>
    cases hre : readExact file pos size with
    | none =>
      refine ⟨?_, ?_, ?_⟩
      · intro base hb
        simp [raw_bytes, hre] at hb
      · intro hb
        simp [get_data, hre]
      · simp [get_data, raw_bytes, hre]
    | some dd =>
      refine ⟨?_, ?_, ?_⟩
      · intro base hb
        simp only [raw_bytes, hre, Option.some.injEq] at hb
        subst hb
        simp [get_data, hre, get_encryption_state, get_compression_state]
      · intro hb
        simp [raw_bytes, hre] at hb
      · cases ic with
        | false => simp [get_data, hre, get_compression_state, raw_bytes]
        | true =>
          cases hc : c.decompress (if ie.isSome then c.decrypt dd else dd) with
          | none =>
            simp [get_data, raw_bytes, hre, hc, get_compression_state,
              get_encryption_state]
          | some d2 =>
            simp [get_data, raw_bytes, hre, hc, get_compression_state,
              get_encryption_state]

/-- C7 witness: on the encrypted-and-compressed resident fixture the
result is the decrypt-then-decompress composition of the raw buffer, and
on the overrunning backed fixture the read failure surfaces as IOError. -/
theorem get_data_decrypt_then_decompress_witness :
    get_data ctxShift pfTrans =
      (let d1 := if (get_encryption_state pfTrans).isSome
        then ctxShift.decrypt [1, 2] else [1, 2]
       if get_compression_state pfTrans then
         match ctxShift.decompress d1 with
         | some d2 => .ok d2
         | none => .error .DecompressionFailed
       else .ok d1)
    ∧ get_data ctx0 pfDiskBad = .error .IOError := by
  exact ⟨(get_data_decrypt_then_decompress ctxShift pfTrans).1 [1, 2] rfl,
    (get_data_decrypt_then_decompress ctx0 pfDiskBad).2.1 rfl⟩

end Rpfm
